import Mathlib

/-!
Shallow embedding of the `llmrpg` narrative game backend (Go) for
specification checking.

The embedding covers:
  * the world system (`internal/world/world.go`): `LocationNode`,
    `ThemeDefinition`, `InMemoryWorldSystem` with `LoadWorldData`,
    `GetLocation`, `GetTheme`, `IsAdjacent`, `GetAdjacentLocations`;
  * the session layer (`internal/app/router.go`, package `session`):
    `GameSession`, `InMemorySessionManager` with `CreateNewSession`,
    `GetSession`, `UpdateSession`, and `GameSession.AddRecentAction`;
  * the action executor (`internal/character/character.go`, package
    `narrative`): `SimpleActionExecutor.ExecuteActions` and
    `handleUpdateLocation`;
  * the orchestrator (`NarrativeEngine.ProcessPlayerInput` and
    `buildPromptContext`).

Modelling conventions:
  * Go `map[string]T` becomes an association list `List (String × T)`
    with `List.lookup`; insertion appends at the end, so list order is
    insertion order (Go map iteration order is unspecified; it only
    affects the order of aggregated diagnostic strings).
  * Go `error` becomes `Option String` (`none` = nil error) or
    `Except String α`; error strings follow the Go format strings with
    the surrounding single quotes dropped.
  * Go `time.Time` becomes a `Nat` supplied explicitly as `now`.
  * File I/O in `LoadWorldData` (directory walking, reading, JSON
    decoding) is abstracted away: the function receives the lists of
    successfully parsed records together with each file's base name
    (used for the id-fallback), in directory-walk order. Read/parse
    failures, which only add further error strings, are out of model.
  * Go pointer aliasing of `*GameSession` (the store and the caller
    share one object) is modelled by writing the threaded session value
    back into the store at every exit point of `ProcessPlayerInput`.
  * `fmt.Printf` logging is dropped.
-/

/-- A decoded JSON value as produced by Go `encoding/json` into
`map[string]interface{}` (`float64` payloads are kept as their literal
text: no claim inspects a number's value, only whether a value is a
string). -/
inductive JsonVal where
  | null : JsonVal
  | bool (b : Bool) : JsonVal
  | num (lit : String) : JsonVal
  | str (s : String) : JsonVal
  | arr (elems : List JsonVal) : JsonVal
  | obj (fields : List (String × JsonVal)) : JsonVal
deriving Repr

/-- `character.Character` (`internal/character/character.go`).  The Go
field `Class` is rendered as `Class` (legal in Lean since only the
lower-case `class` is reserved). -/
structure Character where
  ID : String
  Name : String
  Class : String
  Origin : String
  Level : Int
deriving Repr, DecidableEq

/-- `character.NewCharacter`: builds a character at level 1. -/
def NewCharacter (id name cls origin : String) : Character :=
  { ID := id, Name := name, Class := cls, Origin := origin, Level := 1 }

/-- `world.LocationNode`.  `Attributes` is kept as a decoded-JSON
object. -/
structure LocationNode where
  ID : String
  Name : String
  Description : String
  AdjacentIDs : List String
  Tags : List String
  ImageID : String
  ThemeID : String
  Attributes : List (String × JsonVal)
deriving Repr

/-- `world.ThemeDefinition`. -/
structure ThemeDefinition where
  ID : String
  Name : String
deriving Repr, DecidableEq

/-- `world.InMemoryWorldSystem`: the two maps (the `sync.RWMutex` has no
sequential content). -/
structure InMemoryWorldSystem where
  locations : List (String × LocationNode)
  themes : List (String × ThemeDefinition)
deriving Repr

/-- `world.NewInMemoryWorldSystem`: empty maps. -/
def NewInMemoryWorldSystem : InMemoryWorldSystem :=
  { locations := [], themes := [] }

namespace InMemoryWorldSystem

/-- `GetLocation`: map lookup, error `location with ID … not found`
when absent. -/
def GetLocation (ws : InMemoryWorldSystem) (locationID : String) :
    Except String LocationNode :=
  match ws.locations.lookup locationID with
  | none => .error ("location with ID " ++ locationID ++ " not found")
  | some loc => .ok loc

/-- `GetTheme`: map lookup, error when absent. -/
def GetTheme (ws : InMemoryWorldSystem) (themeID : String) :
    Except String ThemeDefinition :=
  match ws.themes.lookup themeID with
  | none => .error ("theme definition with ID " ++ themeID ++ " not found")
  | some t => .ok t

/-- `IsAdjacent`: both endpoints must exist (distinct `… not found`
errors for current and target), then linear scan of the stored
`AdjacentIDs` of the current location. -/
def IsAdjacent (ws : InMemoryWorldSystem) (currentLocationID targetLocationID : String) :
    Except String Bool :=
  match ws.locations.lookup currentLocationID with
  | none => .error ("current location with ID " ++ currentLocationID ++ " not found")
  | some currentLoc =>
    match ws.locations.lookup targetLocationID with
    | none => .error ("target location with ID " ++ targetLocationID ++ " not found")
    | some _ => .ok (currentLoc.AdjacentIDs.any (fun adjID => adjID == targetLocationID))

/-- `GetAllLocationIDs`. -/
def GetAllLocationIDs (ws : InMemoryWorldSystem) : List String :=
  ws.locations.map (fun p => p.1)

/-- `GetAllThemeIDs`. -/
def GetAllThemeIDs (ws : InMemoryWorldSystem) : List String :=
  ws.themes.map (fun p => p.1)

/-- `ValidateThemeExists`. -/
def ValidateThemeExists (ws : InMemoryWorldSystem) (themeID : String) : Bool :=
  (ws.themes.lookup themeID).isSome

/-- `GetAdjacentLocations`: fails if the id is absent; otherwise
resolves each adjacency id, silently skipping (with a logged warning,
dropped here) ids that do not resolve. -/
def GetAdjacentLocations (ws : InMemoryWorldSystem) (locationID : String) :
    Except String (List LocationNode) :=
  match ws.GetLocation locationID with
  | .error e => .error e
  | .ok currentLoc =>
    .ok (currentLoc.AdjacentIDs.filterMap (fun adjID => ws.locations.lookup adjID))

/-- One step of the theme-loading walk in `LoadWorldData`: id falls back
to the file's base name when empty, duplicates are reported and
skipped. -/
def loadThemeStep (acc : List (String × ThemeDefinition) × List String)
    (file : String × ThemeDefinition) :
    List (String × ThemeDefinition) × List String :=
  let t := file.2
  let tid := if t.ID = "" then file.1 else t.ID
  if (acc.1.lookup tid).isSome then
    (acc.1, acc.2 ++
      ["duplicate theme ID " ++ tid ++ " found (from file " ++ file.1 ++ ")"])
  else
    (acc.1 ++ [(tid, { t with ID := tid })], acc.2)

/-- One step of the location-loading walk in `LoadWorldData`: id
fallback, duplicate check first, then theme-reference check (a location
naming a non-existent theme is reported and skipped; an empty `ThemeID`
is allowed). -/
def loadLocationStep (themes : List (String × ThemeDefinition))
    (acc : List (String × LocationNode) × List String)
    (file : String × LocationNode) :
    List (String × LocationNode) × List String :=
  let l := file.2
  let lid := if l.ID = "" then file.1 else l.ID
  if (acc.1.lookup lid).isSome then
    (acc.1, acc.2 ++
      ["duplicate location ID " ++ lid ++ " found (from file " ++ file.1 ++ ")"])
  else if l.ThemeID ≠ "" ∧ (themes.lookup l.ThemeID).isNone then
    (acc.1, acc.2 ++
      ["location " ++ l.Name ++ " (" ++ lid ++
        ") references non-existent theme ID " ++ l.ThemeID])
  else
    (acc.1 ++ [(lid, { l with ID := lid })], acc.2)

/-- The post-load adjacency validation pass of `LoadWorldData`: every
adjacency id of every stored location must itself be stored. -/
def adjacencyErrors (locs : List (String × LocationNode)) : List String :=
  locs.foldl
    (fun errs p =>
      errs ++ p.2.AdjacentIDs.filterMap (fun adjID =>
        if (locs.lookup adjID).isSome then none
        else some ("location " ++ p.2.Name ++ " (" ++ p.2.ID ++
          ") references non-existent adjacent location ID " ++ adjID)))
    []

/-- `LoadWorldData`: resets both maps, loads themes then locations
(each with its file's base name for the id fallback), runs the
adjacency pass, and returns the new system together with the aggregated
error strings.  The Go function returns a single non-nil error exactly
when this list is non-empty; the partially filled maps are left in
place either way. -/
def LoadWorldData (_ws : InMemoryWorldSystem)
    (locationFiles : List (String × LocationNode))
    (themeFiles : List (String × ThemeDefinition)) :
    InMemoryWorldSystem × List String :=
  let tRes := themeFiles.foldl loadThemeStep ([], [])
  let lRes := locationFiles.foldl (loadLocationStep tRes.1) ([], tRes.2)
  ({ locations := lRes.1, themes := tRes.1 },
    lRes.2 ++ adjacencyErrors lRes.1)

end InMemoryWorldSystem

/-- `session.GameSession` (`internal/app/router.go`).  `Player` is a
non-nil pointer in every reachable state; the nil-player case only
arises as an argument of `CreateNewSession`, which takes an
`Option Character`. -/
structure GameSession where
  ID : String
  Player : Character
  CurrentLocationID : String
  CreatedAt : Nat
  LastActive : Nat
  RecentActions : List String
deriving Repr, DecidableEq

/-- `GameSession.AddRecentAction`: append, then slice off the oldest
entries once the log exceeds `maxRecentActions = 5`. -/
def GameSession.AddRecentAction (sess : GameSession) (actionSummary : String) :
    GameSession :=
  let ra := sess.RecentActions ++ [actionSummary]
  { sess with
    RecentActions := if ra.length > 5 then ra.drop (ra.length - 5) else ra }

/-- `session.InMemorySessionManager`: the id-to-session map. -/
structure InMemorySessionManager where
  sessions : List (String × GameSession)
deriving Repr, DecidableEq

/-- `session.NewInMemorySessionManager`. -/
def NewInMemorySessionManager : InMemorySessionManager :=
  { sessions := [] }

namespace InMemorySessionManager

/-- Overwrite the value stored under `key` (models a Go mutation of the
`*GameSession` object the map already points to; entries under other
keys are untouched and no new key is created). -/
def setEntry (sm : InMemorySessionManager) (key : String) (s : GameSession) :
    InMemorySessionManager :=
  { sessions := sm.sessions.map (fun p => if p.1 = key then (key, s) else p) }

/-- `CreateNewSession`: nil player and empty player id are rejected; the
new id is `session_<playerID>_<now>` (Go uses `time.Now().UnixNano()`);
a colliding id is rejected; otherwise the session is stored with
`CurrentLocationID := startLocationID` taken verbatim (the Go code
explicitly does *not* consult the world system here). -/
def CreateNewSession (sm : InMemorySessionManager) (player : Option Character)
    (startLocationID : String) (now : Nat) :
    InMemorySessionManager × Except String GameSession :=
  match player with
  | none => (sm, .error "cannot create session with nil player")
  | some p =>
    if p.ID = "" then
      (sm, .error "player must have an ID to create a session")
    else
      let newID := "session_" ++ p.ID ++ "_" ++ toString now
      if (sm.sessions.lookup newID).isSome then
        (sm, .error "session ID collision detected (highly unlikely)")
      else
        let sess : GameSession :=
          { ID := newID, Player := p, CurrentLocationID := startLocationID,
            CreatedAt := now, LastActive := now, RecentActions := [] }
        ({ sessions := sm.sessions ++ [(newID, sess)] }, .ok sess)

/-- `GetSession`: lookup, and on success refresh `LastActive` — a
mutation through the shared pointer, hence visible in the store too. -/
def GetSession (sm : InMemorySessionManager) (now : Nat) (sessionID : String) :
    InMemorySessionManager × Except String GameSession :=
  match sm.sessions.lookup sessionID with
  | none => (sm, .error ("session not found: " ++ sessionID))
  | some sess =>
    let s1 := { sess with LastActive := now }
    (sm.setEntry sessionID s1, .ok s1)

/-- `UpdateSession`: nil session and untracked ids are rejected; on
success only `LastActive` is refreshed (field changes made by the caller
are already visible through the shared pointer, which the caller of this
model accounts for by a prior `setEntry`). -/
def UpdateSession (sm : InMemorySessionManager) (now : Nat)
    (session : Option GameSession) :
    InMemorySessionManager × Option String :=
  match session with
  | none => (sm, some "cannot update nil session")
  | some s =>
    if (sm.sessions.lookup s.ID).isSome then
      (sm.setEntry s.ID { s with LastActive := now }, none)
    else
      (sm, some ("session " ++ s.ID ++ " not managed by this manager"))

/-- `GetAllSessionIDs`. -/
def GetAllSessionIDs (sm : InMemorySessionManager) : List String :=
  sm.sessions.map (fun p => p.1)

end InMemorySessionManager

/-- `llm.LLMAction`: the Go field `Type` is rendered `typ` (`Type` is a
Lean sort keyword); `Data` is the decoded-JSON object. -/
structure LLMAction where
  typ : String
  Data : List (String × JsonVal)
deriving Repr

/-- `llm.LLMResponse`. -/
structure LLMResponse where
  Narrative : String
  Suggestions : List String
  Actions : List LLMAction
deriving Repr

/-- `strings.Contains hay needle`: some suffix of `hay` starts with
`needle`. -/
def strContainsSub (hay needle : String) : Bool :=
  (List.range (hay.data.length + 1)).any
    (fun i => needle.data.isPrefixOf (hay.data.drop i))

mutual

/-- Rendering of a decoded JSON value roughly as Go `%v` prints an
`interface{}` (strings print bare); only used inside wrapped error
messages, which no claim inspects. -/
def JsonVal.render : JsonVal → String
  | .null => "<nil>"
  | .bool b => if b then "true" else "false"
  | .num lit => lit
  | .str s => s
  | .arr elems => "[" ++ String.intercalate " " (JsonVal.renderList elems) ++ "]"
  | .obj fields =>
    "map[" ++ String.intercalate " " (JsonVal.renderFields fields) ++ "]"

/-- Elementwise rendering of a JSON array. -/
def JsonVal.renderList : List JsonVal → List String
  | [] => []
  | v :: vs => v.render :: JsonVal.renderList vs

/-- Elementwise `key:value` rendering of a JSON object. -/
def JsonVal.renderFields : List (String × JsonVal) → List String
  | [] => []
  | f :: fs => (f.1 ++ ":" ++ f.2.render) :: JsonVal.renderFields fs

end

/-- Go `%v` of the `map[string]interface{}` action payload, in list
order (Go map iteration order is unspecified). -/
def renderActionData (data : List (String × JsonVal)) : String :=
  (JsonVal.obj data).render

namespace SimpleActionExecutor

/-- `handleUpdateLocation`: data-shape validation (`locationId` present,
a string, non-empty), the same-location no-op, the adjacency query with
its `not found`-substring test, and the single state mutation on
success.  Returns the (possibly updated) session and the Go `error`. -/
def handleUpdateLocation (ws : InMemoryWorldSystem) (action : LLMAction)
    (currentSession : GameSession) : GameSession × Option String :=
  match action.Data.lookup "locationId" with
  | none =>
    (currentSession, some "action data missing required field locationId")
  | some locationIDData =>
    match locationIDData with
    | .str targetLocationID =>
      if targetLocationID = "" then
        (currentSession, some "action data field locationId cannot be empty")
      else if currentSession.CurrentLocationID = targetLocationID then
        (currentSession, none)
      else
        match ws.IsAdjacent currentSession.CurrentLocationID targetLocationID with
        | .error e =>
          if strContainsSub e "not found" then
            (currentSession,
              some ("validation failed - location does not exist: " ++ e))
          else
            (currentSession,
              some ("error checking adjacency via WorldSystem: " ++ e))
        | .ok isAdj =>
          if isAdj then
            ({ currentSession with CurrentLocationID := targetLocationID }, none)
          else
            (currentSession,
              some ("validation failed - target location " ++ targetLocationID ++
                " is not adjacent to current location " ++
                currentSession.CurrentLocationID))
    | _ =>
      (currentSession, some "action data field locationId must be a string")

/-- One iteration of the `switch` in `ExecuteActions` (before error
wrapping and the success-side history append). -/
def execOneAction (ws : InMemoryWorldSystem) (action : LLMAction)
    (currentSession : GameSession) : GameSession × Option String :=
  if action.typ = "updateLocation" then
    handleUpdateLocation ws action currentSession
  else if action.typ = "addItem" then
    (currentSession,
      some ("action type " ++ action.typ ++
        " requires InventorySystem (not implemented yet)"))
  else if action.typ = "removeItem" then
    (currentSession,
      some ("action type " ++ action.typ ++
        " requires InventorySystem (not implemented yet)"))
  else if action.typ = "applyEffect" then
    (currentSession,
      some ("action type " ++ action.typ ++
        " requires Character/EffectSystem (not implemented yet)"))
  else
    (currentSession,
      some ("unknown or unsupported action type received from LLM: " ++
        action.typ))

/-- The wrapping `fmt.Errorf("failed to execute action (type: %s, data:
%v): %w", …)` applied to every collected error. -/
def wrapExecError (action : LLMAction) (e : String) : String :=
  "failed to execute action (type: " ++ action.typ ++ ", data: " ++
    renderActionData action.Data ++ "): " ++ e

/-- `ExecuteActions` on a non-nil session: the sequential loop.  Each
action is attempted; a failure contributes its wrapped error to the
returned slice (in input order) and the batch continues; a success
contributes nothing to the slice and appends `System executed: <type>`
to the session history. -/
def ExecuteActions (ws : InMemoryWorldSystem) (actions : List LLMAction)
    (currentSession : GameSession) : GameSession × List String :=
  match actions with
  | [] => (currentSession, [])
  | action :: rest =>
    let r := execOneAction ws action currentSession
    match r.2 with
    | some e =>
      let k := ExecuteActions ws rest r.1
      (k.1, wrapExecError action e :: k.2)
    | none =>
      ExecuteActions ws rest
        (r.1.AddRecentAction ("System executed: " ++ action.typ))

/-- `ExecuteActions` including the Go nil-session guard. -/
def ExecuteActionsP (ws : InMemoryWorldSystem) (actions : List LLMAction) :
    Option GameSession → Option GameSession × List String
  | none => (none, ["cannot execute actions on a nil session"])
  | some s =>
    let r := ExecuteActions ws actions s
    (some r.1, r.2)

end SimpleActionExecutor

/-- `llm.PlayerContextData`. -/
structure PlayerContextData where
  Name : String
  Class : String
  Origin : String
  Level : Int
deriving Repr, DecidableEq

/-- `llm.LocationContextData`. -/
structure LocationContextData where
  CurrentLocationName : String
  CurrentLocationDesc : String
  AdjacentLocationIDs : List String
  AdjacentLocationNames : List String
  CurrentThemeID : String
deriving Repr, DecidableEq

/-- `llm.SessionContextData`: `TimeElapsed` is Go
`time.Since(CreatedAt).Round(time.Second).String()`; it is rendered
here as the decimal seconds count (the exact duration formatting is
immaterial to every claim). -/
structure SessionContextData where
  TimeElapsed : String
  RecentActions : List String
deriving Repr, DecidableEq

/-- `llm.PromptData`. -/
structure PromptData where
  PlayerContext : PlayerContextData
  LocationContext : LocationContextData
  SessionContext : SessionContextData
  PlayerInput : String
deriving Repr, DecidableEq

namespace NarrativeEngine

/-- `buildPromptContext`: reads the current location (fatal if it does
not resolve), degrades a failed adjacent-locations query to an empty
list, and assembles the prompt data.  Pure read: the session is not
modified. -/
def buildPromptContext (ws : InMemoryWorldSystem) (now : Nat)
    (currentSession : GameSession) : Except String PromptData :=
  let playerCtx : PlayerContextData :=
    { Name := currentSession.Player.Name,
      Class := currentSession.Player.Class,
      Origin := currentSession.Player.Origin,
      Level := currentSession.Player.Level }
  match ws.GetLocation currentSession.CurrentLocationID with
  | .error e =>
    .error ("could not get current location details for ID " ++
      currentSession.CurrentLocationID ++ ": " ++ e)
  | .ok currentLoc =>
    let adjacentLocNodes :=
      match ws.GetAdjacentLocations currentSession.CurrentLocationID with
      | .error _ => []
      | .ok nodes => nodes
    let adjLocIDs := adjacentLocNodes.map (fun node => node.ID)
    let adjLocNames :=
      adjacentLocNodes.map (fun node => node.ID ++ " (" ++ node.Name ++ ")")
    let locCtx : LocationContextData :=
      { CurrentLocationName := currentLoc.ID ++ " (" ++ currentLoc.Name ++ ")",
        CurrentLocationDesc := currentLoc.Description,
        AdjacentLocationIDs := adjLocIDs,
        AdjacentLocationNames := adjLocNames,
        CurrentThemeID := currentLoc.ThemeID }
    let sessionCtx : SessionContextData :=
      { TimeElapsed := toString (now - currentSession.CreatedAt),
        RecentActions := currentSession.RecentActions }
    .ok { PlayerContext := playerCtx, LocationContext := locCtx,
          SessionContext := sessionCtx, PlayerInput := "" }

/-- The aggregate annotation `ProcessPlayerInput` prepends to the
narrative when some actions failed. -/
def actionErrorHeader (n : Nat) : String :=
  "[System Error processing actions: " ++ toString n ++
    " error(s) occurred. The story continues...]\n\n"

/-- `ProcessPlayerInput`: one turn.  The LLM adapter is the function
argument `gen` (its `ctx`/cancellation parameter has no sequential
content).  Returns the final session store and either the turn error or
the (possibly annotated) response.  Store write-backs at each exit model
the Go pointer aliasing between the store and `currentSession`. -/
def ProcessPlayerInput (ws : InMemoryWorldSystem) (systemPrompt : String)
    (gen : String → PromptData → Except String LLMResponse)
    (sm : InMemorySessionManager) (now : Nat)
    (sessionID playerInput : String) :
    InMemorySessionManager × Except String LLMResponse :=
  -- 1. Get current game session
  let g := sm.GetSession now sessionID
  match g.2 with
  | .error e =>
    (g.1, .error ("failed to retrieve session " ++ sessionID ++ ": " ++ e))
  | .ok currentSession0 =>
    -- Log player input to session history
    let currentSession1 :=
      currentSession0.AddRecentAction ("Player: " ++ playerInput)
    let sm1 := g.1.setEntry sessionID currentSession1
    -- 2. Build prompt context
    match buildPromptContext ws now currentSession1 with
    | .error e =>
      (sm1, .error ("failed to build prompt context for session " ++
        sessionID ++ ": " ++ e))
    | .ok promptData0 =>
      let promptData := { promptData0 with PlayerInput := playerInput }
      -- 3. Call LLM adapter
      match gen systemPrompt promptData with
      | .error e =>
        (sm1, .error ("LLM adapter failed for session " ++ sessionID ++
          ": " ++ e))
      | .ok llmResponse =>
        -- 4. Execute actions returned by the LLM
        let execRes :=
          if llmResponse.Actions.length > 0 then
            let r := SimpleActionExecutor.ExecuteActions ws
              llmResponse.Actions currentSession1
            if r.2.length > 0 then
              (r.1,
                { llmResponse with
                  Narrative := actionErrorHeader r.2.length ++
                    llmResponse.Narrative })
            else
              (r.1, llmResponse)
          else
            (currentSession1, llmResponse)
        let sm2 := sm1.setEntry sessionID execRes.1
        -- 5. Update session (failures here are only logged)
        let u := sm2.UpdateSession now (some execRes.1)
        -- 6. Return the final response
        (u.1, .ok execRes.2)

end NarrativeEngine

/-! ### Concrete fixtures -/

/-- A location record with only the claim-relevant fields set. -/
def mkLoc (id name : String) (adj : List String) : LocationNode :=
  { ID := id, Name := name, Description := "", AdjacentIDs := adj,
    Tags := [], ImageID := "", ThemeID := "", Attributes := [] }

/-- The spec's end-to-end graph: `gate` and `village`, mutually
adjacent. -/
def wsEx : InMemoryWorldSystem :=
  { locations :=
      [("gate", mkLoc "gate" "Gate" ["village"]),
       ("village", mkLoc "village" "Village" ["gate"])],
    themes := [] }

/-- An asymmetric graph: `a → b` is stored, `b → a` is not. -/
def wsAsym : InMemoryWorldSystem :=
  { locations :=
      [("a", mkLoc "a" "A" ["b"]),
       ("b", mkLoc "b" "B" [])],
    themes := [] }

/-- A concrete player character. -/
def heroEx : Character := NewCharacter "hero" "Hero" "" ""

/-- A session parked at `gate` in `wsEx`. -/
def sessEx : GameSession :=
  { ID := "s1", Player := heroEx, CurrentLocationID := "gate",
    CreatedAt := 0, LastActive := 0, RecentActions := [] }

/-- A session parked at `a` in `wsAsym`. -/
def sessA : GameSession := { sessEx with CurrentLocationID := "a" }

/-- A session parked at `b` in `wsAsym`. -/
def sessB : GameSession := { sessEx with CurrentLocationID := "b" }

/-- An `updateLocation` proposed action with the given target. -/
def mkMove (target : String) : LLMAction :=
  { typ := "updateLocation", Data := [("locationId", JsonVal.str target)] }

/-- The session record `CreateNewSession` builds on success. -/
def newSessionRecord (p : Character) (startLocationID : String) (now : Nat) :
    GameSession :=
  { ID := "session_" ++ p.ID ++ "_" ++ toString now, Player := p,
    CurrentLocationID := startLocationID, CreatedAt := now,
    LastActive := now, RecentActions := [] }

/-- Modelled from the spec: `execute(actions, session) -> ordered list
of (maybe error)`, one outcome slot per input action in input order
(`none` = success), executing sequentially with the same per-action
semantics as the code.  Used only to compare the code's return shape
against the spec's contract. -/
def SimpleActionExecutor.ExecuteActionsSpec (ws : InMemoryWorldSystem)
    (actions : List LLMAction) (sess : GameSession) :
    GameSession × List (Option String) :=
  match actions with
  | [] => (sess, [])
  | action :: rest =>
    let r := SimpleActionExecutor.execOneAction ws action sess
    match r.2 with
    | some e =>
      let k := SimpleActionExecutor.ExecuteActionsSpec ws rest r.1
      (k.1, some (SimpleActionExecutor.wrapExecError action e) :: k.2)
    | none =>
      let k := SimpleActionExecutor.ExecuteActionsSpec ws rest
        (r.1.AddRecentAction ("System executed: " ++ action.typ))
      (k.1, none :: k.2)

/-- The prior graph used as counterexample context: one location
`other`, which the failed load below discards. -/
def wsPrior : InMemoryWorldSystem :=
  { locations := [("other", mkLoc "other" "Other" [])], themes := [] }

/-- One location file whose record has a dangling adjacency id. -/
def danglingLocFiles : List (String × LocationNode) :=
  [("a", mkLoc "a" "A" ["b"])]

/-- The session written back by an aborted turn: the fetched session
with its refreshed `LastActive` and the appended player-input log
entry. -/
def abortedTurnSession (s0 : GameSession) (now : Nat) (playerInput : String) :
    GameSession :=
  ({ s0 with LastActive := now }).AddRecentAction ("Player: " ++ playerInput)

/-- A one-session store holding `sessEx` under key `s1`. -/
def smEx : InMemorySessionManager := { sessions := [("s1", sessEx)] }

/-- A text generator that always fails with a simulated transport
error. -/
def genFailEx : String → PromptData → Except String LLMResponse :=
  fun _ _ => .error "simulated transport error"

/-- The prompt context built for `sessEx` fetched at time 5 with input
`go` in `wsEx`. -/
def pdEx : PromptData :=
  { PlayerContext := { Name := "Hero", Class := "", Origin := "", Level := 1 },
    LocationContext :=
      { CurrentLocationName := "gate (Gate)", CurrentLocationDesc := "",
        AdjacentLocationIDs := ["village"],
        AdjacentLocationNames := ["village (Village)"],
        CurrentThemeID := "" },
    SessionContext := { TimeElapsed := "5", RecentActions := ["Player: go"] },
    PlayerInput := "" }

/-- A generator returning one narrative with one invalid proposed
action (`updateLocation` to the unknown id `nowhere`). -/
def respEx : LLMResponse :=
  { Narrative := "Night falls.", Suggestions := ["look"],
    Actions := [mkMove "nowhere"] }

/-- A text generator that always returns `respEx`. -/
def genRespEx : String → PromptData → Except String LLMResponse :=
  fun _ _ => .ok respEx

/-- The response shape `ProcessPlayerInput` returns when `n` per-action
errors occurred: the single aggregate annotation prepended to the
narrative, everything else unchanged. -/
def annotatedResponse (resp : LLMResponse) (n : Nat) : LLMResponse :=
  { resp with
    Narrative := NarrativeEngine.actionErrorHeader n ++ resp.Narrative }

/-! ### General helper lemmas -/

/-- Appending a fresh key to an association list makes it found. -/
theorem lookup_append_fresh {β : Type} (l : List (String × β)) (k : String) (v : β)
    (h : l.lookup k = none) : (l ++ [(k, v)]).lookup k = some v := by
  induction l with
  | nil => simp
  | cons p tl ih =>
    obtain ⟨a, b⟩ := p
    rw [List.cons_append]
    by_cases hk : k = a
    · subst hk; simp [List.lookup_cons] at h
    · have hb : (k == a) = false := by simp [hk]
      simp only [List.lookup_cons, hb] at h ⊢
      exact ih h

/-- Overwriting a present key in an association list. -/
theorem lookup_overwrite {β : Type} (l : List (String × β)) (k : String) (v : β)
    (h : (l.lookup k).isSome) :
    (l.map (fun p => if p.1 = k then (k, v) else p)).lookup k = some v := by
  induction l with
  | nil => simp at h
  | cons p tl ih =>
    obtain ⟨a, b⟩ := p
    by_cases hk : a = k
    · simp only [List.map_cons, if_pos hk]
      simp
    · have hb : (k == a) = false := by simp [Ne.symm hk]
      simp only [List.lookup_cons, hb] at h
      simp only [List.map_cons, if_neg hk, List.lookup_cons, hb]
      exact ih h

/-- Overwriting one key leaves lookups of other keys unchanged. -/
theorem lookup_overwrite_other {β : Type} (l : List (String × β)) (k j : String)
    (v : β) (hj : j ≠ k) :
    (l.map (fun p => if p.1 = k then (k, v) else p)).lookup j = l.lookup j := by
  induction l with
  | nil => simp
  | cons p tl ih =>
    obtain ⟨a, b⟩ := p
    by_cases hk : a = k
    · subst hk
      have hb : (j == a) = false := by simp [hj]
      simp [List.lookup_cons, hb, ih]
    · simp only [List.map_cons]
      rw [if_neg hk]
      simp only [List.lookup_cons]
      cases hab : (j == a) <;> simp [ih]

/-- `setEntry` overwrites the entry of a key that is present. -/
theorem setEntry_lookup_self (sm : InMemorySessionManager) (k : String)
    (v : GameSession) (h : (sm.sessions.lookup k).isSome) :
    ((sm.setEntry k v).sessions.lookup k) = some v :=
  lookup_overwrite sm.sessions k v h

/-- Substring search succeeds on a string that ends with the needle. -/
theorem strContainsSub_append_self (pre needle : String) :
    strContainsSub (pre ++ needle) needle = true := by
  unfold strContainsSub
  rw [List.any_eq_true]
  have hdata : (pre ++ needle).data = pre.data ++ needle.data := rfl
  refine ⟨pre.data.length, ?_, ?_⟩
  · rw [List.mem_range, hdata, List.length_append]
    omega
  · rw [hdata]
    have h2 : (pre.data ++ needle.data).drop pre.data.length = needle.data := by
      have h0 := @List.drop_append Char pre.data needle.data 0
      rw [Nat.add_zero, List.drop_zero] at h0
      exact h0
    rw [h2, List.isPrefixOf_iff_prefix]

/-- Two string concatenations differ whenever their left parts differ at
a common character position. -/
theorem append_ne_of_char_ne (p q x y : String) (i : Nat) (c d : Char)
    (hp : p.data[i]? = some c) (hq : q.data[i]? = some d) (hcd : c ≠ d) :
    p ++ x ≠ q ++ y := by
  intro h
  have hd2 : p.data ++ x.data = q.data ++ y.data := congrArg String.data h
  have hip : i < p.data.length := by
    by_contra hn
    push_neg at hn
    rw [List.getElem?_eq_none hn] at hp
    cases hp
  have hiq : i < q.data.length := by
    by_contra hn
    push_neg at hn
    rw [List.getElem?_eq_none hn] at hq
    cases hq
  have e1 : (p.data ++ x.data)[i]? = some c := by
    rw [List.getElem?_append_left hip]; exact hp
  have e2 : (q.data ++ y.data)[i]? = some d := by
    rw [List.getElem?_append_left hiq]; exact hq
  rw [hd2, e2] at e1
  exact hcd (Option.some.inj e1).symm

/-- Dropping from the front commutes with a previous front drop. -/
theorem drop_append_drop {α : Type} (x y : List α) (d m : Nat) (hd : d ≤ x.length) :
    (x.drop d ++ y).drop m = (x ++ y).drop (d + m) := by
  have hl : (x.take d).length = d := by
    rw [List.length_take]; omega
  calc (x.drop d ++ y).drop m
      = (x.take d ++ (x.drop d ++ y)).drop ((x.take d).length + m) :=
        (List.drop_append m).symm
    _ = (x ++ y).drop (d + m) := by
        rw [hl, ← List.append_assoc, List.take_append_drop]

/-- `AddRecentAction` keeps the suffix of bounded length 5. -/
theorem addRecentAction_eq (s : GameSession) (a : String) :
    (s.AddRecentAction a).RecentActions =
      (s.RecentActions ++ [a]).drop ((s.RecentActions.length + 1) - 5) := by
  unfold GameSession.AddRecentAction
  by_cases h : (s.RecentActions ++ [a]).length > 5
  · simp only [if_pos h]
    rw [List.length_append]
    rfl
  · simp only [if_neg h]
    rw [List.length_append] at h
    have : s.RecentActions.length + 1 - 5 = 0 := by simp at h; omega
    rw [this, List.drop_zero]

/-- `AddRecentAction` touches only the `RecentActions` field. -/
theorem addRecentAction_frame (s : GameSession) (a : String) :
    (s.AddRecentAction a).ID = s.ID ∧
    (s.AddRecentAction a).Player = s.Player ∧
    (s.AddRecentAction a).CurrentLocationID = s.CurrentLocationID ∧
    (s.AddRecentAction a).CreatedAt = s.CreatedAt ∧
    (s.AddRecentAction a).LastActive = s.LastActive := by
  unfold GameSession.AddRecentAction
  exact ⟨rfl, rfl, rfl, rfl, rfl⟩

/-- Folding appends over a bounded log keeps the last-five suffix of the
total append. -/
theorem foldl_addRecentAction (es : List String) (s : GameSession)
    (h : s.RecentActions.length ≤ 5) :
    (es.foldl GameSession.AddRecentAction s).RecentActions =
      (s.RecentActions ++ es).drop ((s.RecentActions.length + es.length) - 5) := by
  induction es generalizing s with
  | nil =>
    have h0 : s.RecentActions.length - 5 = 0 := by omega
    simp [h0]
  | cons a tl ih =>
    rw [List.foldl_cons]
    have h1len : (s.AddRecentAction a).RecentActions.length ≤ 5 := by
      rw [addRecentAction_eq]
      simp only [List.length_drop, List.length_append, List.length_singleton]
      omega
    rw [ih (s.AddRecentAction a) h1len, addRecentAction_eq]
    simp only [List.length_drop, List.length_append, List.length_singleton]
    rw [drop_append_drop _ _ _ _ (by
      simp only [List.length_append, List.length_singleton]
      omega)]
    rw [List.append_assoc, List.singleton_append]
    congr 1
    simp only [List.length_cons]
    omega

/-- `l.any (· == a)` is membership (used to read off `IsAdjacent`). -/
theorem any_beq_eq_decide_mem (l : List String) (a : String) :
    (l.any fun x => x == a) = decide (a ∈ l) := by
  by_cases h : a ∈ l
  · simp [h, List.any_eq_true]
  · simp [h, List.any_eq_true]
    intro x hx hxa
    exact h (hxa ▸ hx)

/-- The world-system error messages end in `not found` after an id and a
space, so `strings.Contains msg "not found"` holds. -/
theorem strContainsSub_notfound (a b : String) :
    strContainsSub (a ++ (b ++ " not found")) "not found" = true := by
  have h : a ++ (b ++ " not found") = (a ++ (b ++ " ")) ++ "not found" := by
    rw [String.append_assoc, String.append_assoc]
    rfl
  rw [h]
  exact strContainsSub_append_self _ _

/-! ### Claim theorems -/

/-- C5: `IsAdjacent` fails with a `not found` error when either endpoint
is absent; when both are present it returns exactly the stored directed
membership `toId ∈ fromId.AdjacentIDs`; the relation is directed (in
`wsAsym`, `a → b` holds but `b → a` does not), and the executor honors
the stored direction (`handleUpdateLocation` moves `a → b` and rejects
`b → a`). -/
theorem isAdjacent_spec (ws : InMemoryWorldSystem) (fromId toId : String) :
    ((ws.locations.lookup fromId = none ∨ ws.locations.lookup toId = none) →
      ∃ e, ws.IsAdjacent fromId toId = .error e ∧
        strContainsSub e "not found" = true) ∧
    (∀ fromLoc, ws.locations.lookup fromId = some fromLoc →
      (ws.locations.lookup toId).isSome →
      ws.IsAdjacent fromId toId = .ok (decide (toId ∈ fromLoc.AdjacentIDs))) ∧
    (InMemoryWorldSystem.IsAdjacent wsAsym "a" "b" = .ok true ∧
     InMemoryWorldSystem.IsAdjacent wsAsym "b" "a" = .ok false ∧
     SimpleActionExecutor.handleUpdateLocation wsAsym (mkMove "b") sessA =
       ({ sessA with CurrentLocationID := "b" }, none) ∧
     (SimpleActionExecutor.handleUpdateLocation wsAsym (mkMove "a") sessB).1 =
       sessB ∧
     (SimpleActionExecutor.handleUpdateLocation wsAsym (mkMove "a") sessB).2 ≠
       none) := by
  refine ⟨?_, ?_, ?_⟩
  · intro habs
    unfold InMemoryWorldSystem.IsAdjacent
    match hfrom : ws.locations.lookup fromId with
    | none =>
      exact ⟨_, rfl, strContainsSub_notfound "current location with ID " fromId⟩
    | some fromLoc =>
      match hto : ws.locations.lookup toId with
      | none =>
        exact ⟨_, rfl, strContainsSub_notfound "target location with ID " toId⟩
      | some toLoc =>
        rw [hfrom, hto] at habs
        rcases habs with h | h <;> cases h
  · intro fromLoc hfrom hto
    unfold InMemoryWorldSystem.IsAdjacent
    rw [hfrom]
    match hto2 : ws.locations.lookup toId with
    | none => rw [hto2] at hto; cases hto
    | some toLoc =>
      dsimp only
      rw [any_beq_eq_decide_mem]
  · exact ⟨rfl, rfl, by decide, by decide, by decide⟩

/-- C6: an `updateLocation` whose (non-empty) target equals the current
location is a no-op success for every world graph — the adjacency query
is never consulted (the result is the unchanged session, error-free,
uniformly in `ws`). -/
theorem updateLocation_noop_on_current_location (ws : InMemoryWorldSystem)
    (a : LLMAction) (s : GameSession) (t : String)
    (hlook : a.Data.lookup "locationId" = some (JsonVal.str t))
    (hne : t ≠ "") (hcur : t = s.CurrentLocationID) :
    SimpleActionExecutor.handleUpdateLocation ws a s = (s, none) := by
  unfold SimpleActionExecutor.handleUpdateLocation
  rw [hlook]
  dsimp only
  rw [if_neg hne, if_pos hcur.symm]

/-- Witness for C6 at a concrete input (staying at `gate` in `wsEx`). -/
theorem updateLocation_noop_on_current_location_witness :
    SimpleActionExecutor.handleUpdateLocation wsEx (mkMove "gate") sessEx =
      (sessEx, none) :=
  updateLocation_noop_on_current_location wsEx (mkMove "gate") sessEx "gate"
    rfl (by decide) (by decide)

/-- C9: starting from any log of at most 5 entries (sessions are created
with an empty log), the recent-action log never exceeds 5 entries, and
after appending at least 5 further entries exactly the 5 most recently
appended remain, oldest-first order preserved. -/
theorem addRecentAction_bounded_history (s : GameSession) (es : List String)
    (h : s.RecentActions.length ≤ 5) :
    (es.foldl GameSession.AddRecentAction s).RecentActions.length ≤ 5 ∧
    (5 ≤ es.length →
      (es.foldl GameSession.AddRecentAction s).RecentActions =
        es.drop (es.length - 5)) := by
  constructor
  · rw [foldl_addRecentAction es s h]
    simp only [List.length_drop, List.length_append]
    omega
  · intro h5
    rw [foldl_addRecentAction es s h]
    have heq : s.RecentActions.length + es.length - 5 =
        s.RecentActions.length + (es.length - 5) := by omega
    rw [heq]
    exact List.drop_append (es.length - 5)

/-- Witness for C9: six appends to a fresh session retain exactly the
last five, in order. -/
theorem addRecentAction_bounded_history_witness :
    (["e1", "e2", "e3", "e4", "e5", "e6"].foldl
        GameSession.AddRecentAction sessEx).RecentActions.length ≤ 5 ∧
    (["e1", "e2", "e3", "e4", "e5", "e6"].foldl
        GameSession.AddRecentAction sessEx).RecentActions =
      ["e2", "e3", "e4", "e5", "e6"] := by
  have h := addRecentAction_bounded_history sessEx
    ["e1", "e2", "e3", "e4", "e5", "e6"] (by decide)
  exact ⟨h.1, by rw [h.2 (by decide)]; decide⟩

/-- C10: for every character with a non-empty id and *every* start
location string — resolving in no world graph or otherwise —
`CreateNewSession` succeeds (provided the generated id is fresh, the
Go code's nanosecond-uniqueness assumption) and stores a session whose
`CurrentLocationID` is the argument verbatim: the store performs no
world-graph validation (its signature does not even mention the world
system). -/
theorem createNewSession_no_world_validation (sm : InMemorySessionManager)
    (p : Character) (startLocationID : String) (now : Nat)
    (hid : p.ID ≠ "")
    (hfresh : sm.sessions.lookup ("session_" ++ p.ID ++ "_" ++ toString now) =
      none) :
    sm.CreateNewSession (some p) startLocationID now =
      ({ sessions := sm.sessions ++
          [("session_" ++ p.ID ++ "_" ++ toString now,
            newSessionRecord p startLocationID now)] },
        .ok (newSessionRecord p startLocationID now)) ∧
    (newSessionRecord p startLocationID now).CurrentLocationID =
      startLocationID ∧
    ((sm.CreateNewSession (some p) startLocationID now).1.sessions.lookup
      ("session_" ++ p.ID ++ "_" ++ toString now) =
      some (newSessionRecord p startLocationID now)) := by
  have hmain : sm.CreateNewSession (some p) startLocationID now =
      ({ sessions := sm.sessions ++
          [("session_" ++ p.ID ++ "_" ++ toString now,
            newSessionRecord p startLocationID now)] },
        .ok (newSessionRecord p startLocationID now)) := by
    unfold InMemorySessionManager.CreateNewSession
    dsimp only
    rw [if_neg hid, hfresh]
    rfl
  refine ⟨hmain, rfl, ?_⟩
  rw [hmain]
  exact lookup_append_fresh sm.sessions _ _ hfresh

/-- Witness for C10: a session created with the unresolvable start
location `no_such_place` is stored verbatim. -/
theorem createNewSession_no_world_validation_witness :
    NewInMemorySessionManager.CreateNewSession (some heroEx) "no_such_place" 7 =
      ({ sessions := [("session_hero_7", newSessionRecord heroEx "no_such_place" 7)] },
        .ok (newSessionRecord heroEx "no_such_place" 7)) ∧
    (newSessionRecord heroEx "no_such_place" 7).CurrentLocationID =
      "no_such_place" := by
  have h := createNewSession_no_world_validation NewInMemorySessionManager
    heroEx "no_such_place" 7 (by decide) (by decide)
  exact ⟨h.1, h.2.1⟩

/-- Witness for C5 at concrete inputs: a missing endpoint yields a
`not found` error, and a present pair yields the stored membership. -/
theorem isAdjacent_spec_witness :
    (∃ e, wsEx.IsAdjacent "gate" "nowhere" = .error e ∧
      strContainsSub e "not found" = true) ∧
    wsEx.IsAdjacent "gate" "village" =
      .ok (decide ("village" ∈ (mkLoc "gate" "Gate" ["village"]).AdjacentIDs)) := by
  refine ⟨(isAdjacent_spec wsEx "gate" "nowhere").1 (Or.inr rfl), ?_⟩
  exact (isAdjacent_spec wsEx "gate" "village").2.1
    (mkLoc "gate" "Gate" ["village"]) rfl rfl

/-- `IsAdjacent` fails with a `not found`-carrying error when either
endpoint is absent (shared helper). -/
theorem isAdjacent_error_absent (ws : InMemoryWorldSystem) (fromId toId : String)
    (habs : ws.locations.lookup fromId = none ∨ ws.locations.lookup toId = none) :
    ∃ e, ws.IsAdjacent fromId toId = .error e ∧
      strContainsSub e "not found" = true := by
  unfold InMemoryWorldSystem.IsAdjacent
  match hfrom : ws.locations.lookup fromId with
  | none =>
    exact ⟨_, rfl, strContainsSub_notfound "current location with ID " fromId⟩
  | some fromLoc =>
    match hto : ws.locations.lookup toId with
    | none =>
      exact ⟨_, rfl, strContainsSub_notfound "target location with ID " toId⟩
    | some toLoc =>
      rw [hfrom, hto] at habs
      rcases habs with h | h <;> cases h

/-- `IsAdjacent` returns the stored directed membership when both
endpoints are present (shared helper). -/
theorem isAdjacent_ok_present (ws : InMemoryWorldSystem) (fromId toId : String)
    (fromLoc : LocationNode) (hfrom : ws.locations.lookup fromId = some fromLoc)
    (hto : (ws.locations.lookup toId).isSome) :
    ws.IsAdjacent fromId toId = .ok (decide (toId ∈ fromLoc.AdjacentIDs)) := by
  unfold InMemoryWorldSystem.IsAdjacent
  rw [hfrom]
  match hto2 : ws.locations.lookup toId with
  | none => rw [hto2] at hto; cases hto
  | some toLoc =>
    dsimp only
    rw [any_beq_eq_decide_mem]

/-- C2: the full case analysis of `handleUpdateLocation` for a target
different from the current location — missing / non-string / empty
`locationId` each fail with the corresponding invalid-data error and an
unchanged session; an absent endpoint fails with the distinct
`location does not exist` validation error (distinct from the
not-adjacent message, last conjunct) and an unchanged session; a known
but non-adjacent target fails with the `is not adjacent` validation
error and an unchanged session; an adjacent target updates exactly the
session's `CurrentLocationID`. -/
theorem handleUpdateLocation_cases (ws : InMemoryWorldSystem) (a : LLMAction)
    (s : GameSession) :
    (a.Data.lookup "locationId" = none →
      SimpleActionExecutor.handleUpdateLocation ws a s =
        (s, some "action data missing required field locationId")) ∧
    (∀ v, a.Data.lookup "locationId" = some v → (∀ t, v ≠ JsonVal.str t) →
      SimpleActionExecutor.handleUpdateLocation ws a s =
        (s, some "action data field locationId must be a string")) ∧
    (a.Data.lookup "locationId" = some (JsonVal.str "") →
      SimpleActionExecutor.handleUpdateLocation ws a s =
        (s, some "action data field locationId cannot be empty")) ∧
    (∀ t, a.Data.lookup "locationId" = some (JsonVal.str t) → t ≠ "" →
      s.CurrentLocationID ≠ t →
      (ws.locations.lookup s.CurrentLocationID = none ∨
        ws.locations.lookup t = none) →
      ∃ e, SimpleActionExecutor.handleUpdateLocation ws a s =
        (s, some ("validation failed - location does not exist: " ++ e))) ∧
    (∀ t fromLoc, a.Data.lookup "locationId" = some (JsonVal.str t) → t ≠ "" →
      s.CurrentLocationID ≠ t →
      ws.locations.lookup s.CurrentLocationID = some fromLoc →
      (ws.locations.lookup t).isSome →
      t ∉ fromLoc.AdjacentIDs →
      SimpleActionExecutor.handleUpdateLocation ws a s =
        (s, some ("validation failed - target location " ++ t ++
          " is not adjacent to current location " ++ s.CurrentLocationID))) ∧
    (∀ t fromLoc, a.Data.lookup "locationId" = some (JsonVal.str t) → t ≠ "" →
      s.CurrentLocationID ≠ t →
      ws.locations.lookup s.CurrentLocationID = some fromLoc →
      (ws.locations.lookup t).isSome →
      t ∈ fromLoc.AdjacentIDs →
      SimpleActionExecutor.handleUpdateLocation ws a s =
        ({ s with CurrentLocationID := t }, none)) ∧
    (∀ x y : String,
      ("validation failed - location does not exist: " ++ x) ≠
        ("validation failed - target location " ++ y)) := by
  refine ⟨?_, ?_, ?_, ?_, ?_, ?_, ?_⟩
  · intro hnone
    unfold SimpleActionExecutor.handleUpdateLocation
    rw [hnone]
  · intro v hv hns
    unfold SimpleActionExecutor.handleUpdateLocation
    rw [hv]
    cases v with
    | str t => exact absurd rfl (hns t)
    | null => rfl
    | bool b => rfl
    | num lit => rfl
    | arr elems => rfl
    | obj fields => rfl
  · intro hv
    unfold SimpleActionExecutor.handleUpdateLocation
    rw [hv]
    rfl
  · intro t hv hne hcur habs
    obtain ⟨e, he, hc⟩ := isAdjacent_error_absent ws s.CurrentLocationID t habs
    unfold SimpleActionExecutor.handleUpdateLocation
    rw [hv]
    dsimp only
    rw [if_neg hne, if_neg hcur, he]
    dsimp only
    rw [hc]
    exact ⟨e, rfl⟩
  · intro t fromLoc hv hne hcur hfrom hto hnadj
    unfold SimpleActionExecutor.handleUpdateLocation
    rw [hv]
    dsimp only
    rw [if_neg hne, if_neg hcur,
      isAdjacent_ok_present ws s.CurrentLocationID t fromLoc hfrom hto]
    dsimp only
    rw [decide_eq_false hnadj]
    rfl
  · intro t fromLoc hv hne hcur hfrom hto hadj
    unfold SimpleActionExecutor.handleUpdateLocation
    rw [hv]
    dsimp only
    rw [if_neg hne, if_neg hcur,
      isAdjacent_ok_present ws s.CurrentLocationID t fromLoc hfrom hto]
    dsimp only
    rw [decide_eq_true hadj]
    rfl
  · intro x y
    exact append_ne_of_char_ne _ _ x y 20 'l' 't' rfl rfl (by decide)

/-- Witness for C2: the adjacent-move branch at concrete inputs — the
session at `gate` moves to `village` with no error. -/
theorem handleUpdateLocation_cases_witness :
    SimpleActionExecutor.handleUpdateLocation wsEx (mkMove "village") sessEx =
      ({ sessEx with CurrentLocationID := "village" }, none) :=
  (handleUpdateLocation_cases wsEx (mkMove "village") sessEx).2.2.2.2.2.1
    "village" (mkLoc "gate" "Gate" ["village"]) rfl (by decide) (by decide)
    rfl (by decide) (by decide)

/-- C1 (amended): `ExecuteActions` executes the batch sequentially and
returns the spec's ordered one-slot-per-action outcome list *with the
success slots removed* — one error per failing action, in input order,
and no slot at all for a successful action; the final session agrees
with the spec-shaped run, and a later action sees the state changes of
earlier successful ones (concrete conjunct: after
`[move to nowhere (fails), gate→village, village→gate]` the session is
back at `gate` — the third action validates against the post-second
state — with exactly one error slot). -/
theorem executeActions_refines_spec (ws : InMemoryWorldSystem)
    (actions : List LLMAction) (sess : GameSession) :
    ((SimpleActionExecutor.ExecuteActions ws actions sess).1 =
      (SimpleActionExecutor.ExecuteActionsSpec ws actions sess).1 ∧
     (SimpleActionExecutor.ExecuteActions ws actions sess).2 =
      (SimpleActionExecutor.ExecuteActionsSpec ws actions sess).2.filterMap id ∧
     (SimpleActionExecutor.ExecuteActionsSpec ws actions sess).2.length =
      actions.length) ∧
    ((SimpleActionExecutor.ExecuteActions wsEx
        [mkMove "nowhere", mkMove "village", mkMove "gate"]
        sessEx).1.CurrentLocationID = "gate" ∧
     (SimpleActionExecutor.ExecuteActions wsEx
        [mkMove "nowhere", mkMove "village", mkMove "gate"]
        sessEx).2.length = 1) := by
  refine ⟨?_, by decide, by decide⟩
  induction actions generalizing sess with
  | nil => exact ⟨rfl, rfl, rfl⟩
  | cons action rest ih =>
    unfold SimpleActionExecutor.ExecuteActions
      SimpleActionExecutor.ExecuteActionsSpec
    dsimp only
    match hr : (SimpleActionExecutor.execOneAction ws action sess).2 with
    | some e =>
      dsimp only
      obtain ⟨ih1, ih2, ih3⟩ :=
        ih (SimpleActionExecutor.execOneAction ws action sess).1
      refine ⟨ih1, ?_, ?_⟩
      · simp only [List.filterMap_cons, id]
        rw [ih2]
      · simp only [List.length_cons, ih3]
    | none =>
      dsimp only
      obtain ⟨ih1, ih2, ih3⟩ :=
        ih ((SimpleActionExecutor.execOneAction ws action sess).1.AddRecentAction
          ("System executed: " ++ action.typ))
      refine ⟨ih1, ?_, ?_⟩
      · simp only [List.filterMap_cons, id]
        rw [ih2]
      · simp only [List.length_cons, ih3]

/-- C1 counterexample: for the batch `[A fails, B succeeds, C fails]`
the code returns a list of 2 error values, not 3 outcome slots — there
is no slot for the successful middle action, refuting
"exactly one slot per input action". -/
theorem executeActions_not_one_slot_per_action :
    (SimpleActionExecutor.ExecuteActions wsEx
      [mkMove "nowhere", mkMove "village", { typ := "addItem", Data := [] }]
      sessEx).2.length = 2 ∧
    [mkMove "nowhere", mkMove "village",
      ({ typ := "addItem", Data := [] } : LLMAction)].length = 3 := by
  exact ⟨by decide, rfl⟩

/-- A successful association-list lookup exhibits a member pair. -/
theorem mem_of_lookup_eq_some {β : Type} {l : List (String × β)} {k : String}
    {v : β} (h : l.lookup k = some v) : (k, v) ∈ l := by
  induction l with
  | nil => simp at h
  | cons p tl ih =>
    obtain ⟨a, b⟩ := p
    by_cases hk : k = a
    · subst hk
      have hb : (k == k) = true := by simp
      simp only [List.lookup_cons, hb] at h
      cases h
      exact List.mem_cons_self _ _
    · have hb : (k == a) = false := by simp [hk]
      simp only [List.lookup_cons, hb] at h
      exact List.mem_cons_of_mem _ (ih h)

/-- Folding error-appending steps only grows the accumulator. -/
theorem foldl_append_acc {α β : Type} (g : α → List β) (l : List α)
    (init : List β) :
    l.foldl (fun e x => e ++ g x) init =
      init ++ l.foldl (fun e x => e ++ g x) [] := by
  induction l generalizing init with
  | nil => simp
  | cons q tl ih =>
    rw [List.foldl_cons, List.foldl_cons, ih (init ++ g q), ih ([] ++ g q)]
    simp [List.append_assoc]

/-- A fold of error-appending steps is non-empty as soon as one element
contributes a non-empty error list. -/
theorem foldl_append_ne_nil {α β : Type} (g : α → List β) (l : List α)
    (p : α) (hp : p ∈ l) (hg : g p ≠ []) (init : List β) :
    l.foldl (fun e x => e ++ g x) init ≠ [] := by
  induction l generalizing init with
  | nil => cases hp
  | cons q tl ih =>
    rw [List.foldl_cons]
    rcases List.mem_cons.mp hp with hq | htl
    · subst hq
      rw [foldl_append_acc]
      intro hcontr
      rw [List.append_assoc, List.append_eq_nil] at hcontr
      exact hg (List.append_eq_nil.mp hcontr.2).1
    · exact ih htl (init ++ g q)

/-- The adjacency pass reports at least one error whenever some stored
location has a dangling adjacency id. -/
theorem adjacencyErrors_ne_nil (locs : List (String × LocationNode))
    (id : String) (loc : LocationNode) (adjID : String)
    (h1 : locs.lookup id = some loc) (hmem : adjID ∈ loc.AdjacentIDs)
    (h2 : locs.lookup adjID = none) :
    InMemoryWorldSystem.adjacencyErrors locs ≠ [] := by
  unfold InMemoryWorldSystem.adjacencyErrors
  refine foldl_append_ne_nil _ locs (id, loc) (mem_of_lookup_eq_some h1) ?_ []
  intro hcontr
  have hin : ("location " ++ loc.Name ++ " (" ++ loc.ID ++
      ") references non-existent adjacent location ID " ++ adjID) ∈
      loc.AdjacentIDs.filterMap (fun adjID2 =>
        if (locs.lookup adjID2).isSome then none
        else some ("location " ++ loc.Name ++ " (" ++ loc.ID ++
          ") references non-existent adjacent location ID " ++ adjID2)) := by
    rw [List.mem_filterMap]
    refine ⟨adjID, hmem, ?_⟩
    rw [h2]
    rfl
  rw [hcontr] at hin
  cases hin

/-- C3 counterexample: loading a single location with a dangling
adjacency reference over a non-empty prior graph returns errors, yet
afterward `GetLocation "a"` succeeds on the resulting system — a graph
that is neither the prior one (which had no `a`) nor empty: the partial
graph is queryable. -/
theorem loadWorldData_partial_graph_queryable :
    (wsPrior.LoadWorldData danglingLocFiles []).2 ≠ [] ∧
    ((wsPrior.LoadWorldData danglingLocFiles []).1.GetLocation "a").isOk = true ∧
    (wsPrior.GetLocation "a").isOk = false ∧
    (NewInMemoryWorldSystem.GetLocation "a").isOk = false := by
  refine ⟨by decide, ?_, by decide, by decide⟩
  rfl

/-- C3 (amended): a load containing a dangling adjacency reference (or,
concretely, a dangling theme reference or duplicate identifiers) does
return an error, and the prior graph is always discarded (loading is
equivalent to loading into an empty system); but entries that passed
their individual checks remain queryable after the failed load, so the
observable graph is the partially populated new one, not the prior one
and not an empty one. -/
theorem loadWorldData_keeps_partial_graph (ws : InMemoryWorldSystem)
    (locationFiles : List (String × LocationNode))
    (themeFiles : List (String × ThemeDefinition)) :
    (ws.LoadWorldData locationFiles themeFiles =
      NewInMemoryWorldSystem.LoadWorldData locationFiles themeFiles) ∧
    (∀ id loc adjID,
      (ws.LoadWorldData locationFiles themeFiles).1.locations.lookup id =
        some loc →
      adjID ∈ loc.AdjacentIDs →
      (ws.LoadWorldData locationFiles themeFiles).1.locations.lookup adjID =
        none →
      (ws.LoadWorldData locationFiles themeFiles).2 ≠ []) ∧
    (NewInMemoryWorldSystem.LoadWorldData
      [("x", { mkLoc "x" "X" [] with ThemeID := "ghost" })] []).2 ≠ [] ∧
    (NewInMemoryWorldSystem.LoadWorldData []
      [("t1", { ID := "t", Name := "T" }),
       ("t2", { ID := "t", Name := "T2" })]).2 ≠ [] := by
  refine ⟨rfl, ?_, by decide, by decide⟩
  intro id loc adjID h1 hmem h2
  unfold InMemoryWorldSystem.LoadWorldData at h1 h2 ⊢
  dsimp only at h1 h2 ⊢
  intro hcontr
  rw [List.append_eq_nil] at hcontr
  exact adjacencyErrors_ne_nil _ id loc adjID h1 hmem h2 hcontr.2

/-- Witness for C3's amended theorem: the concrete dangling-adjacency
load over the prior graph reports a non-empty error list. -/
theorem loadWorldData_keeps_partial_graph_witness :
    (wsPrior.LoadWorldData danglingLocFiles []).2 ≠ [] :=
  (loadWorldData_keeps_partial_graph wsPrior danglingLocFiles []).2.1
    "a" (mkLoc "a" "A" ["b"]) "b" rfl (by decide) rfl

/-- Shared helper: for a session that exists, a turn either returns a
success, or the stored session is exactly the fetched one with refreshed
`LastActive` and the appended player-input log entry (the turn can only
abort at the context-build or generate step). -/
theorem ppi_abort_store_state (ws : InMemoryWorldSystem) (systemPrompt : String)
    (gen : String → PromptData → Except String LLMResponse)
    (sm : InMemorySessionManager) (now : Nat) (sessionID playerInput : String)
    (s0 : GameSession) (hlook : sm.sessions.lookup sessionID = some s0) :
    (NarrativeEngine.ProcessPlayerInput ws systemPrompt gen sm now
      sessionID playerInput).2.isOk = true ∨
    (NarrativeEngine.ProcessPlayerInput ws systemPrompt gen sm now
      sessionID playerInput).1.sessions.lookup sessionID =
      some (abortedTurnSession s0 now playerInput) := by
  have hsome : (sm.sessions.lookup sessionID).isSome := by rw [hlook]; rfl
  have hset1 : ((sm.setEntry sessionID { s0 with LastActive := now }).sessions.lookup
      sessionID) = some { s0 with LastActive := now } :=
    setEntry_lookup_self sm sessionID _ hsome
  have hset1some : ((sm.setEntry sessionID
      { s0 with LastActive := now }).sessions.lookup sessionID).isSome = true := by
    rw [hset1]; rfl
  unfold NarrativeEngine.ProcessPlayerInput InMemorySessionManager.GetSession
  rw [hlook]
  dsimp only
  cases hb : NarrativeEngine.buildPromptContext ws now
      (({ s0 with LastActive := now }).AddRecentAction
        ("Player: " ++ playerInput)) with
  | error e =>
    exact Or.inr (setEntry_lookup_self _ sessionID _ hset1some)
  | ok pd =>
    dsimp only
    cases hg : gen systemPrompt { pd with PlayerInput := playerInput } with
    | error e =>
      exact Or.inr (setEntry_lookup_self _ sessionID _ hset1some)
    | ok resp =>
      exact Or.inl rfl

/-- C4 counterexample: a turn aborted at the generate step (step 4,
before step 5) does *not* leave the session exactly as it was — the
stored session differs from the original (the player-input log entry
was appended and the last-active timestamp refreshed). -/
theorem turn_mutates_session_before_step5 :
    (NarrativeEngine.ProcessPlayerInput wsEx "sys" genFailEx smEx 5
      "s1" "go").2.isOk = false ∧
    (NarrativeEngine.ProcessPlayerInput wsEx "sys" genFailEx smEx 5
      "s1" "go").1.sessions.lookup "s1" ≠ some sessEx := by
  exact ⟨rfl, by decide⟩

/-- C4 (amended): steps 1–4 are not mutation-free — step 1 refreshes the
session's last-active timestamp and step 2 appends the player input to
the recent-action log; those are the *only* mutations before step 5, so
a turn aborted at or before the generator call leaves the session
unchanged except for exactly those two fields (current location,
character and creation timestamp are untouched). -/
theorem processPlayerInput_abort_only_log_and_timestamp
    (ws : InMemoryWorldSystem) (systemPrompt : String)
    (gen : String → PromptData → Except String LLMResponse)
    (sm : InMemorySessionManager) (now : Nat) (sessionID playerInput : String)
    (s0 : GameSession) (hlook : sm.sessions.lookup sessionID = some s0)
    (herr : (NarrativeEngine.ProcessPlayerInput ws systemPrompt gen sm now
      sessionID playerInput).2.isOk = false) :
    (NarrativeEngine.ProcessPlayerInput ws systemPrompt gen sm now
      sessionID playerInput).1.sessions.lookup sessionID =
      some (abortedTurnSession s0 now playerInput) ∧
    (abortedTurnSession s0 now playerInput).CurrentLocationID =
      s0.CurrentLocationID ∧
    (abortedTurnSession s0 now playerInput).Player = s0.Player ∧
    (abortedTurnSession s0 now playerInput).CreatedAt = s0.CreatedAt ∧
    (abortedTurnSession s0 now playerInput).ID = s0.ID := by
  rcases ppi_abort_store_state ws systemPrompt gen sm now sessionID
      playerInput s0 hlook with hok | hstore
  · rw [hok] at herr
    cases herr
  · exact ⟨hstore,
      (addRecentAction_frame { s0 with LastActive := now } _).2.2.1,
      (addRecentAction_frame { s0 with LastActive := now } _).2.1,
      (addRecentAction_frame { s0 with LastActive := now } _).2.2.2.1,
      (addRecentAction_frame { s0 with LastActive := now } _).1⟩

/-- Witness for C4's amended theorem at the concrete failing-generator
run. -/
theorem processPlayerInput_abort_only_log_and_timestamp_witness :
    (NarrativeEngine.ProcessPlayerInput wsEx "sys" genFailEx smEx 5
      "s1" "go").1.sessions.lookup "s1" =
      some (abortedTurnSession sessEx 5 "go") ∧
    (abortedTurnSession sessEx 5 "go").CurrentLocationID =
      sessEx.CurrentLocationID :=
  have h := processPlayerInput_abort_only_log_and_timestamp wsEx "sys"
    genFailEx smEx 5 "s1" "go" sessEx rfl rfl
  ⟨h.1, h.2.1⟩

/-- C8 counterexample: on a generator failure the stored session is the
original with the player-input log entry appended *and* the last-active
timestamp refreshed — the claim's "only session change is the appended
player-input log entry" misses the timestamp (the two states differ). -/
theorem generator_failure_lastActive_also_changes :
    (NarrativeEngine.ProcessPlayerInput wsEx "sys" genFailEx smEx 5
      "s1" "go").1.sessions.lookup "s1" =
      some (({ sessEx with LastActive := 5 }).AddRecentAction "Player: go") ∧
    ({ sessEx with LastActive := 5 }).AddRecentAction "Player: go" ≠
      sessEx.AddRecentAction "Player: go" := by
  exact ⟨by decide, by decide⟩

/-- C8 (amended): when the generator fails, `ProcessPlayerInput` returns
an error (and no narrative result), the session's current location is
unchanged, and the only session changes made before the failure are the
appended player-input log entry and the refreshed last-active
timestamp. -/
theorem processPlayerInput_generator_failure_state
    (ws : InMemoryWorldSystem) (systemPrompt : String)
    (gen : String → PromptData → Except String LLMResponse)
    (sm : InMemorySessionManager) (now : Nat) (sessionID playerInput : String)
    (s0 : GameSession) (pd : PromptData) (e : String)
    (hlook : sm.sessions.lookup sessionID = some s0)
    (hbuild : NarrativeEngine.buildPromptContext ws now
      (({ s0 with LastActive := now }).AddRecentAction
        ("Player: " ++ playerInput)) = .ok pd)
    (hgen : gen systemPrompt { pd with PlayerInput := playerInput } =
      .error e) :
    (NarrativeEngine.ProcessPlayerInput ws systemPrompt gen sm now
      sessionID playerInput).2 =
      .error ("LLM adapter failed for session " ++ sessionID ++ ": " ++ e) ∧
    (NarrativeEngine.ProcessPlayerInput ws systemPrompt gen sm now
      sessionID playerInput).1.sessions.lookup sessionID =
      some (abortedTurnSession s0 now playerInput) ∧
    (abortedTurnSession s0 now playerInput).CurrentLocationID =
      s0.CurrentLocationID := by
  have hsome : (sm.sessions.lookup sessionID).isSome := by rw [hlook]; rfl
  have hset1some : ((sm.setEntry sessionID
      { s0 with LastActive := now }).sessions.lookup sessionID).isSome = true := by
    rw [setEntry_lookup_self sm sessionID _ hsome]; rfl
  unfold NarrativeEngine.ProcessPlayerInput InMemorySessionManager.GetSession
  rw [hlook]
  dsimp only
  rw [hbuild]
  dsimp only
  rw [hgen]
  exact ⟨rfl, setEntry_lookup_self _ sessionID _ hset1some,
    (addRecentAction_frame { s0 with LastActive := now } _).2.2.1⟩

/-- Witness for C8's amended theorem at the concrete failing-generator
run. -/
theorem processPlayerInput_generator_failure_state_witness :
    (NarrativeEngine.ProcessPlayerInput wsEx "sys" genFailEx smEx 5
      "s1" "go").2 =
      .error ("LLM adapter failed for session " ++ "s1" ++ ": " ++
        "simulated transport error") ∧
    (NarrativeEngine.ProcessPlayerInput wsEx "sys" genFailEx smEx 5
      "s1" "go").1.sessions.lookup "s1" =
      some (abortedTurnSession sessEx 5 "go") :=
  have h := processPlayerInput_generator_failure_state wsEx "sys" genFailEx
    smEx 5 "s1" "go" sessEx pdEx "simulated transport error" rfl rfl rfl
  ⟨h.1, h.2.1⟩

/-- C7: when a fetched session's turn generates successfully with at
least one proposed action and the executor reports at least one
per-action error, `ProcessPlayerInput` still returns a *successful*
result: exactly one aggregate annotation carrying the failure count is
prepended to the narrative, and the proposed actions and suggestions
are returned unmodified. -/
theorem processPlayerInput_partial_failure_annotated
    (ws : InMemoryWorldSystem) (systemPrompt : String)
    (gen : String → PromptData → Except String LLMResponse)
    (sm : InMemorySessionManager) (now : Nat) (sessionID playerInput : String)
    (s0 : GameSession) (pd : PromptData) (resp : LLMResponse)
    (hlook : sm.sessions.lookup sessionID = some s0)
    (hbuild : NarrativeEngine.buildPromptContext ws now
      (({ s0 with LastActive := now }).AddRecentAction
        ("Player: " ++ playerInput)) = .ok pd)
    (hgen : gen systemPrompt { pd with PlayerInput := playerInput } = .ok resp)
    (hact : resp.Actions.length > 0)
    (herr : (SimpleActionExecutor.ExecuteActions ws resp.Actions
      (({ s0 with LastActive := now }).AddRecentAction
        ("Player: " ++ playerInput))).2.length > 0) :
    (NarrativeEngine.ProcessPlayerInput ws systemPrompt gen sm now
      sessionID playerInput).2 =
      .ok (annotatedResponse resp
        (SimpleActionExecutor.ExecuteActions ws resp.Actions
          (({ s0 with LastActive := now }).AddRecentAction
            ("Player: " ++ playerInput))).2.length) ∧
    (∀ n, (annotatedResponse resp n).Actions = resp.Actions) ∧
    (∀ n, (annotatedResponse resp n).Suggestions = resp.Suggestions) := by
  refine ⟨?_, fun n => rfl, fun n => rfl⟩
  unfold NarrativeEngine.ProcessPlayerInput InMemorySessionManager.GetSession
  rw [hlook]
  dsimp only
  rw [hbuild]
  dsimp only
  rw [hgen]
  dsimp only
  rw [if_pos hact, if_pos herr]
  rfl

/-- Witness for C7: the concrete turn whose single proposed action
fails still succeeds, with the one-failure annotation prepended and the
actions reported unmodified. -/
theorem processPlayerInput_partial_failure_annotated_witness :
    (NarrativeEngine.ProcessPlayerInput wsEx "sys" genRespEx smEx 5
      "s1" "go").2 = .ok (annotatedResponse respEx 1) ∧
    (annotatedResponse respEx 1).Actions = respEx.Actions := by
  have h := processPlayerInput_partial_failure_annotated wsEx "sys" genRespEx
    smEx 5 "s1" "go" sessEx pdEx respEx rfl rfl rfl (by decide) (by decide)
  refine ⟨?_, h.2.1 1⟩
  rw [h.1]
  rfl
